import Mathlib

/-!
Verification of the PF interest ledger engine (`pf_calculator.py`).

Amounts are modelled as exact rationals (ℚ).  Python's `int(x)` conversion
(truncation toward zero) is modelled by `pyInt`, and the two-decimal
truncation `int(raw * 100) / 100.0` (line 129 of the source) by `truncate2`.
The month-by-month loop of `calculate_ledger` (lines 102-156) is modelled by
the structural recursions `ledgerRows`, `totalInterest` and `finalBalance`,
which together compute exactly the quantities the Python loop threads through
its iterations; `calculate_ledger` assembles the triple the Python function
returns.  The month-label helper `get_fy_months` (lines 59-65) is modelled
with an explicit decimal rendering of `str(y)` and the Python slice `[-2:]`.
-/

namespace PF

/-- Python `int()` applied to a rational: truncation toward zero. -/
def pyInt (q : ℚ) : ℤ := q.num.tdiv (q.den : ℤ)

/-- Line 129: `interest = int(raw_interest * 100) / 100.0`. -/
def truncate2 (q : ℚ) : ℚ := (pyInt (q * 100) : ℚ) / 100

/-- One month of user input (spec §3 `MonthInput`; one row of the
`input_df` DataFrame, lines 70-99).  `interest_rate_percent` is the
per-month annual rate of the spec's per-month rate mode; the uniform-rate
engine ignores it. -/
structure MonthInput where
  month : String
  dep_before : ℚ
  pflr_before : ℚ
  dep_after : ℚ
  pflr_after : ℚ
  withdrawal : ℚ
  interest_rate_percent : ℚ
  remarks : String
deriving DecidableEq

/-- One computed ledger row (the dict appended at lines 133-145). -/
structure LedgerRow where
  month : String
  opening_balance : ℚ
  dep_before : ℚ
  pflr_before : ℚ
  dep_after : ℚ
  pflr_after : ℚ
  withdrawal : ℚ
  lowest_balance : ℚ
  interest : ℚ
  closing_balance : ℚ
  remarks : String
deriving DecidableEq

/-- A default row (used only as the out-of-range default of `List.getD`). -/
def dummyRow : LedgerRow :=
  { month := "", opening_balance := 0, dep_before := 0, pflr_before := 0,
    dep_after := 0, pflr_after := 0, withdrawal := 0, lowest_balance := 0,
    interest := 0, closing_balance := 0, remarks := "" }

/-- The body of one iteration of the loop at lines 109-148: from the running
balance `current_bal`, the annual `rate` and the month's input, build the
emitted row (lines 124-145). -/
def mkRow (current_bal rate : ℚ) (m : MonthInput) : LedgerRow :=
  let effective_deposit_for_interest := m.dep_before + m.pflr_before
  let lowest_bal_calc := current_bal + effective_deposit_for_interest - m.withdrawal
  let lowest_bal := max 0 lowest_bal_calc
  let raw_interest := (lowest_bal * rate) / 1200
  let interest := truncate2 raw_interest
  let closing_bal := current_bal + m.dep_before + m.dep_after + m.pflr_before
      + m.pflr_after - m.withdrawal
  { month := m.month, opening_balance := current_bal,
    dep_before := m.dep_before, pflr_before := m.pflr_before,
    dep_after := m.dep_after, pflr_after := m.pflr_after,
    withdrawal := m.withdrawal, lowest_balance := lowest_bal,
    interest := interest, closing_balance := closing_bal,
    remarks := m.remarks }

/-- The `results` list built by the loop: each month's row, the running
balance being the previous month's closing balance (line 147). -/
def ledgerRows (current_bal rate : ℚ) : List MonthInput → List LedgerRow
  | [] => []
  | m :: ms =>
    let row := mkRow current_bal rate m
    row :: ledgerRows row.closing_balance rate ms

/-- The `total_interest` accumulator (lines 105, 148). -/
def totalInterest (current_bal rate : ℚ) : List MonthInput → ℚ
  | [] => 0
  | m :: ms =>
    let row := mkRow current_bal rate m
    row.interest + totalInterest row.closing_balance rate ms

/-- The final value of `current_bal` after the loop (returned at line 156). -/
def finalBalance (current_bal rate : ℚ) : List MonthInput → ℚ
  | [] => current_bal
  | m :: ms => finalBalance (mkRow current_bal rate m).closing_balance rate ms

/-- The `totals` dict built at lines 151-155: the flow-column accumulators
`sum_dep_b`, `sum_pflr_b`, `sum_dep_a`, `sum_pflr_a`, `sum_with`
(lines 107, 118-122) and `total_interest`. -/
structure LedgerTotals where
  sum_dep_b : ℚ
  sum_pflr_b : ℚ
  sum_dep_a : ℚ
  sum_pflr_a : ℚ
  sum_with : ℚ
  total_interest : ℚ
deriving DecidableEq

/-- `calculate_ledger(opening_bal, input_df, rate)` (lines 102-156): the
twelve result rows, the column totals and the final running balance. -/
def calculate_ledger (opening_bal : ℚ) (input : List MonthInput) (rate : ℚ) :
    List LedgerRow × LedgerTotals × ℚ :=
  (ledgerRows opening_bal rate input,
   { sum_dep_b := (input.map (·.dep_before)).sum,
     sum_pflr_b := (input.map (·.pflr_before)).sum,
     sum_dep_a := (input.map (·.dep_after)).sum,
     sum_pflr_a := (input.map (·.pflr_after)).sum,
     sum_with := (input.map (·.withdrawal)).sum,
     total_interest := totalInterest opening_bal rate input },
   finalBalance opening_bal rate input)

/-- Line 394: `final_total_balance = final_principal + totals['Interest']`. -/
def final_total_balance (final_principal total_interest : ℚ) : ℚ :=
  final_principal + total_interest

/-- A default month input (used only as the out-of-range default of
`List.getD`). -/
def dummyMonth : MonthInput :=
  { month := "", dep_before := 0, pflr_before := 0, dep_after := 0,
    pflr_after := 0, withdrawal := 0, interest_rate_percent := 0, remarks := "" }

/-- A valid engine input (spec §4.1 preconditions): exactly 12 rows,
non-negative opening balance, non-negative amount fields. -/
def validInput (opening_bal : ℚ) (ms : List MonthInput) : Prop :=
  ms.length = 12 ∧ 0 ≤ opening_bal ∧
    ∀ m ∈ ms, 0 ≤ m.dep_before ∧ 0 ≤ m.pflr_before ∧ 0 ≤ m.dep_after
      ∧ 0 ≤ m.pflr_after ∧ 0 ≤ m.withdrawal

instance (opening_bal : ℚ) (ms : List MonthInput) :
    Decidable (validInput opening_bal ms) := by
  unfold validInput; infer_instance

/-- Modelled from the spec: the per-month rate mode.  The code under `src/`
only implements the uniform-rate path (`calculate_ledger` takes a single
`rate` argument); spec §4.1 states "each month carries its own independently
editable annual rate; engine uses `row.interest_rate_percent` in step c above
instead of a single global value.  The two modes share identical recurrence
logic; only the rate lookup per month differs."  So the per-month row is the
uniform row with the month's own rate. -/
def mkRowPM (current_bal : ℚ) (m : MonthInput) : LedgerRow :=
  mkRow current_bal m.interest_rate_percent m

/-- Modelled from the spec: the per-month rate mode recurrence, identical to
`ledgerRows` except that each month is computed with its own
`interest_rate_percent`. -/
def ledgerRowsPM (current_bal : ℚ) : List MonthInput → List LedgerRow
  | [] => []
  | m :: ms =>
    let row := mkRowPM current_bal m
    row :: ledgerRowsPM row.closing_balance ms

/-- Decimal digit characters of a natural number, most significant first,
with explicit fuel (the shape of `Nat.toDigitsCore`).  Models how Python's
`str` renders a non-negative integer. -/
def decDigitsCore : ℕ → ℕ → List Char → List Char
  | 0, _, acc => acc
  | fuel + 1, n, acc =>
    let d := Nat.digitChar (n % 10)
    if n / 10 = 0 then d :: acc else decDigitsCore fuel (n / 10) (d :: acc)

/-- Python `str(n)` for a non-negative integer: its decimal digits. -/
def pyStr (n : ℕ) : List Char := decDigitsCore (n + 1) n []

/-- Python slice `s[-2:]`: the last two characters (the whole string when it
is shorter than two characters). -/
def pyLast2 (s : List Char) : List Char := s.drop (s.length - 2)

/-- Line 60: the fixed month-name order of a financial year. -/
def m_names : List String :=
  ["APRIL", "MAY", "JUNE", "JULY", "AUGUST", "SEPTEMBER", "OCTOBER",
   "NOVEMBER", "DECEMBER", "JANUARY", "FEBRUARY", "MARCH"]

/-- Lines 59-65: `get_fy_months(start_year)` — label month `i` with the
fiscal start year for the first nine months, the next year for the last
three, rendered `f"{m} {str(y)[-2:]}"`. -/
def get_fy_months (start_year : ℕ) : List String :=
  m_names.mapIdx fun i m =>
    let y := if i < 9 then start_year else start_year + 1
    m ++ " " ++ String.mk (pyLast2 (pyStr y))

/-- The last two decimal digits of a year, as characters (the spec's "YY"). -/
def lastTwoDigitChars (y : ℕ) : List Char :=
  [Nat.digitChar (y / 10 % 10), Nat.digitChar (y % 10)]

/-- A month whose only activity is a pre-15th deposit of 1000. -/
def depMonth : MonthInput :=
  { month := "", dep_before := 1000, pflr_before := 0, dep_after := 0,
    pflr_after := 0, withdrawal := 0, interest_rate_percent := 71 / 10,
    remarks := "" }

/-- A month with no activity. -/
def zeroMonth : MonthInput :=
  { month := "", dep_before := 0, pflr_before := 0, dep_after := 0,
    pflr_after := 0, withdrawal := 0, interest_rate_percent := 71 / 10,
    remarks := "" }

/-- A month whose only activity is a withdrawal of 100. -/
def withdrawMonth : MonthInput :=
  { month := "", dep_before := 0, pflr_before := 0, dep_after := 0,
    pflr_after := 0, withdrawal := 100, interest_rate_percent := 71 / 10,
    remarks := "" }

/-- The end-to-end scenario input of spec §8: deposits of 1000 before the
15th in months 1 and 2, nothing else. -/
def input5 : List MonthInput :=
  [depMonth, depMonth, zeroMonth, zeroMonth, zeroMonth, zeroMonth,
   zeroMonth, zeroMonth, zeroMonth, zeroMonth, zeroMonth, zeroMonth]

/-- Twelve months whose only activity is a withdrawal of 100 in month 1. -/
def withdrawInput : List MonthInput :=
  [withdrawMonth, zeroMonth, zeroMonth, zeroMonth, zeroMonth, zeroMonth,
   zeroMonth, zeroMonth, zeroMonth, zeroMonth, zeroMonth, zeroMonth]

/-- Four quiet months (months 1-4 of a per-month-rate scenario). -/
def pre4 : List MonthInput := [zeroMonth, zeroMonth, zeroMonth, zeroMonth]

/-- Seven quiet months (months 6-12 of a per-month-rate scenario). -/
def post7 : List MonthInput :=
  [zeroMonth, zeroMonth, zeroMonth, zeroMonth, zeroMonth, zeroMonth, zeroMonth]

/-- The post-15th exclusion property (two-run comparison): running the engine
on `pre ++ mo :: post` versus on the same input with `mo`'s `dep_after`
replaced by `d2`, month `pre.length`'s closing balance and every later
month's opening balance differ, while month `pre.length`'s own interest and
lowest balance are identical. -/
def postExclusionProp (opening_bal rate d2 : ℚ) (pre post : List MonthInput)
    (mo : MonthInput) : Prop :=
  ((calculate_ledger opening_bal (pre ++ { mo with dep_after := d2 } :: post) rate).1.getD
      pre.length dummyRow).closing_balance
    ≠ ((calculate_ledger opening_bal (pre ++ mo :: post) rate).1.getD
      pre.length dummyRow).closing_balance
  ∧ (∀ j, pre.length < j → j < pre.length + 1 + post.length →
      ((calculate_ledger opening_bal (pre ++ { mo with dep_after := d2 } :: post) rate).1.getD
          j dummyRow).opening_balance
        ≠ ((calculate_ledger opening_bal (pre ++ mo :: post) rate).1.getD
          j dummyRow).opening_balance)
  ∧ ((calculate_ledger opening_bal (pre ++ { mo with dep_after := d2 } :: post) rate).1.getD
      pre.length dummyRow).interest
    = ((calculate_ledger opening_bal (pre ++ mo :: post) rate).1.getD
      pre.length dummyRow).interest
  ∧ ((calculate_ledger opening_bal (pre ++ { mo with dep_after := d2 } :: post) rate).1.getD
      pre.length dummyRow).lowest_balance
    = ((calculate_ledger opening_bal (pre ++ mo :: post) rate).1.getD
      pre.length dummyRow).lowest_balance

/-- The per-month rate mode property: each row's interest is computed from
that month's own `interest_rate_percent`, and replacing month `pre.length`'s
rate by `r2` leaves every other month's interest unchanged. -/
def perMonthRateProp (opening_bal r2 : ℚ) (pre post : List MonthInput)
    (mo : MonthInput) : Prop :=
  (∀ j, j < (pre ++ mo :: post).length →
    ((ledgerRowsPM opening_bal (pre ++ mo :: post)).getD j dummyRow).interest
      = truncate2 ((((ledgerRowsPM opening_bal (pre ++ mo :: post)).getD j dummyRow).lowest_balance
          * ((pre ++ mo :: post).getD j dummyMonth).interest_rate_percent) / 1200))
  ∧ ∀ j, j ≠ pre.length →
      ((ledgerRowsPM opening_bal
          (pre ++ { mo with interest_rate_percent := r2 } :: post)).getD j dummyRow).interest
        = ((ledgerRowsPM opening_bal (pre ++ mo :: post)).getD j dummyRow).interest

@[simp] theorem mkRow_opening (b r : ℚ) (m : MonthInput) :
    (mkRow b r m).opening_balance = b := rfl

@[simp] theorem mkRow_lowest (b r : ℚ) (m : MonthInput) :
    (mkRow b r m).lowest_balance = max 0 (b + (m.dep_before + m.pflr_before) - m.withdrawal) := rfl

@[simp] theorem mkRow_interest (b r : ℚ) (m : MonthInput) :
    (mkRow b r m).interest
      = truncate2 ((max 0 (b + (m.dep_before + m.pflr_before) - m.withdrawal) * r) / 1200) := rfl

@[simp] theorem mkRow_closing (b r : ℚ) (m : MonthInput) :
    (mkRow b r m).closing_balance
      = b + m.dep_before + m.dep_after + m.pflr_before + m.pflr_after - m.withdrawal := rfl

@[simp] theorem mkRow_dep_before (b r : ℚ) (m : MonthInput) :
    (mkRow b r m).dep_before = m.dep_before := rfl

@[simp] theorem mkRow_pflr_before (b r : ℚ) (m : MonthInput) :
    (mkRow b r m).pflr_before = m.pflr_before := rfl

@[simp] theorem mkRow_dep_after (b r : ℚ) (m : MonthInput) :
    (mkRow b r m).dep_after = m.dep_after := rfl

@[simp] theorem mkRow_pflr_after (b r : ℚ) (m : MonthInput) :
    (mkRow b r m).pflr_after = m.pflr_after := rfl

@[simp] theorem mkRow_withdrawal (b r : ℚ) (m : MonthInput) :
    (mkRow b r m).withdrawal = m.withdrawal := rfl

@[simp] theorem ledgerRows_length (rate : ℚ) :
    ∀ (ms : List MonthInput) (bal : ℚ), (ledgerRows bal rate ms).length = ms.length
  | [], _ => rfl
  | _ :: ms, bal => by
    simp only [ledgerRows, List.length_cons]
    rw [ledgerRows_length rate ms]

/-- Every emitted row is `mkRow` of its own opening balance and the matching
input month. -/
theorem ledgerRows_getD (rate : ℚ) :
    ∀ (ms : List MonthInput) (bal : ℚ) (i : ℕ), i < ms.length →
      (ledgerRows bal rate ms).getD i dummyRow
        = mkRow (((ledgerRows bal rate ms).getD i dummyRow).opening_balance) rate
            (ms.getD i dummyMonth)
  | [], _, i, h => absurd h (by simp)
  | m :: ms, bal, 0, _ => by
    simp only [ledgerRows, List.getD_cons_zero, mkRow_opening]
  | m :: ms, bal, i + 1, h => by
    simp only [ledgerRows, List.getD_cons_succ]
    exact ledgerRows_getD rate ms _ i (by simpa using Nat.lt_of_succ_lt_succ h)

/-- The first emitted row's opening balance is the supplied balance. -/
theorem ledgerRows_opening_zero (rate bal : ℚ) (m : MonthInput) (ms : List MonthInput) :
    ((ledgerRows bal rate (m :: ms)).getD 0 dummyRow).opening_balance = bal := by
  simp only [ledgerRows, List.getD_cons_zero, mkRow_opening]

/-- Continuity of the recurrence: each row's opening balance is the previous
row's closing balance. -/
theorem ledgerRows_chain (rate : ℚ) :
    ∀ (ms : List MonthInput) (bal : ℚ) (i : ℕ), i + 1 < ms.length →
      ((ledgerRows bal rate ms).getD (i + 1) dummyRow).opening_balance
        = ((ledgerRows bal rate ms).getD i dummyRow).closing_balance
  | [], _, _, h => absurd h (by simp)
  | m :: ms, bal, 0, h => by
    simp only [ledgerRows, List.getD_cons_succ, List.getD_cons_zero]
    match ms, h with
    | m' :: ms', _ => exact ledgerRows_opening_zero rate _ m' ms'
  | m :: ms, bal, i + 1, h => by
    simp only [ledgerRows, List.getD_cons_succ]
    exact ledgerRows_chain rate ms _ i (by simpa using Nat.lt_of_succ_lt_succ h)

/-- Mapping a row projection that only depends on the input month over the
emitted rows gives the corresponding map over the inputs. -/
theorem ledgerRows_map (rate : ℚ) (f : LedgerRow → ℚ) (g : MonthInput → ℚ)
    (hfg : ∀ (b : ℚ) (m : MonthInput), f (mkRow b rate m) = g m) :
    ∀ (ms : List MonthInput) (bal : ℚ),
      (ledgerRows bal rate ms).map f = ms.map g
  | [], _ => rfl
  | m :: ms, bal => by
    simp only [ledgerRows, List.map_cons, hfg]
    rw [ledgerRows_map rate f g hfg ms]

/-- The `total_interest` accumulator equals the sum of the emitted rows'
interest column. -/
theorem totalInterest_eq_sum (rate : ℚ) :
    ∀ (ms : List MonthInput) (bal : ℚ),
      totalInterest bal rate ms = ((ledgerRows bal rate ms).map (·.interest)).sum
  | [], _ => rfl
  | m :: ms, bal => by
    simp only [totalInterest, ledgerRows, List.map_cons, List.sum_cons]
    rw [totalInterest_eq_sum rate ms]

/-- The final running balance is the opening balance plus all flows in,
minus all withdrawals; interest never enters it. -/
theorem finalBalance_eq (rate : ℚ) :
    ∀ (ms : List MonthInput) (bal : ℚ),
      finalBalance bal rate ms
        = bal + (ms.map (·.dep_before)).sum + (ms.map (·.pflr_before)).sum
            + (ms.map (·.dep_after)).sum + (ms.map (·.pflr_after)).sum
            - (ms.map (·.withdrawal)).sum
  | [], _ => by simp [finalBalance]
  | m :: ms, bal => by
    simp only [finalBalance, List.map_cons, List.sum_cons]
    rw [finalBalance_eq rate ms]
    simp only [mkRow_closing]
    ring

/-- Splitting the input list splits the emitted rows, the suffix starting
from the prefix's final balance. -/
theorem ledgerRows_append (rate : ℚ) :
    ∀ (xs ys : List MonthInput) (bal : ℚ),
      ledgerRows bal rate (xs ++ ys)
        = ledgerRows bal rate xs ++ ledgerRows (finalBalance bal rate xs) rate ys
  | [], _, _ => by simp [ledgerRows, finalBalance]
  | x :: xs, ys, bal => by
    simp only [List.cons_append, ledgerRows, finalBalance, List.append_eq]
    rw [ledgerRows_append rate xs ys]

/-- Shifting the starting balance by `d` shifts every emitted opening
balance by `d` (closing balances are linear in the opening balance). -/
theorem ledgerRows_shift (rate d : ℚ) :
    ∀ (ms : List MonthInput) (bal : ℚ) (k : ℕ), k < ms.length →
      ((ledgerRows (bal + d) rate ms).getD k dummyRow).opening_balance
        = ((ledgerRows bal rate ms).getD k dummyRow).opening_balance + d
  | [], _, _, h => absurd h (by simp)
  | m :: ms, bal, 0, _ => by
    simp only [ledgerRows, List.getD_cons_zero, mkRow_opening]
  | m :: ms, bal, k + 1, h => by
    simp only [ledgerRows, List.getD_cons_succ]
    have hcl : (mkRow (bal + d) rate m).closing_balance
        = (mkRow bal rate m).closing_balance + d := by
      simp only [mkRow_closing]; ring
    rw [hcl]
    exact ledgerRows_shift rate d ms _ k (by simpa using Nat.lt_of_succ_lt_succ h)

theorem getD_append_own {α : Type} (x : α) (rest : List α) (d : α) :
    ∀ P : List α, (P ++ x :: rest).getD P.length d = x
  | [] => rfl
  | p :: P => by
    simp only [List.cons_append, List.length_cons, List.getD_cons_succ]
    exact getD_append_own x rest d P

theorem getD_append_shift {α : Type} (rest : List α) (d : α) (k : ℕ) :
    ∀ P : List α, (P ++ rest).getD (P.length + k) d = rest.getD k d
  | [] => by simp
  | p :: P => by
    have h : (p :: P).length + k = (P.length + k) + 1 := by
      simp only [List.length_cons]; omega
    rw [h, List.cons_append, List.getD_cons_succ]
    exact getD_append_shift rest d k P

@[simp] theorem ledgerRowsPM_length :
    ∀ (ms : List MonthInput) (bal : ℚ), (ledgerRowsPM bal ms).length = ms.length
  | [], _ => rfl
  | _ :: ms, bal => by
    simp only [ledgerRowsPM, List.length_cons]
    rw [ledgerRowsPM_length ms]

/-- In per-month mode every emitted row is `mkRowPM` of its own opening
balance and the matching input month (so it uses that month's own rate). -/
theorem ledgerRowsPM_getD :
    ∀ (ms : List MonthInput) (bal : ℚ) (i : ℕ), i < ms.length →
      (ledgerRowsPM bal ms).getD i dummyRow
        = mkRowPM (((ledgerRowsPM bal ms).getD i dummyRow).opening_balance)
            (ms.getD i dummyMonth)
  | [], _, i, h => absurd h (by simp)
  | m :: ms, bal, 0, _ => by
    simp only [ledgerRowsPM, List.getD_cons_zero, mkRowPM, mkRow_opening]
  | m :: ms, bal, i + 1, h => by
    simp only [ledgerRowsPM, List.getD_cons_succ]
    exact ledgerRowsPM_getD ms _ i (by simpa using Nat.lt_of_succ_lt_succ h)

/-- Changing one month's rate in per-month mode leaves every other emitted
row unchanged (closing balances do not depend on the rate). -/
theorem ledgerRowsPM_rate_update (r2 : ℚ) (mo : MonthInput) (post : List MonthInput) :
    ∀ (pre : List MonthInput) (bal : ℚ) (j : ℕ), j ≠ pre.length →
      (ledgerRowsPM bal (pre ++ { mo with interest_rate_percent := r2 } :: post)).getD j dummyRow
        = (ledgerRowsPM bal (pre ++ mo :: post)).getD j dummyRow
  | [], _, 0, h => absurd rfl h
  | [], bal, j + 1, _ => by
    simp only [List.nil_append, ledgerRowsPM, List.getD_cons_succ]
    have hc : (mkRowPM bal { mo with interest_rate_percent := r2 }).closing_balance
        = (mkRowPM bal mo).closing_balance := rfl
    rw [hc]
  | p :: pre, bal, 0, _ => by
    simp only [List.cons_append, ledgerRowsPM, List.getD_cons_zero]
  | p :: pre, bal, j + 1, h => by
    simp only [List.cons_append, ledgerRowsPM, List.getD_cons_succ]
    exact ledgerRowsPM_rate_update r2 mo post pre _ j
      (fun hh => h (by simp [hh]))

/-- Claim C1: For every month, the stored interest equals the raw interest
(`lowest_balance * rate / 1200`) truncated toward zero at the hundredths
place (multiply by 100, take the integer part, divide by 100), never rounded
up; `lowest_balance = 1000` at rate `7.1` yields exactly `5.91`, and raw
values `12.349` and `12.346` both yield `12.34`. -/
theorem C1_interest_truncation (opening_bal rate : ℚ) (input : List MonthInput)
    (i : ℕ) (hi : i < input.length) :
    ((calculate_ledger opening_bal input rate).1.getD i dummyRow).interest
      = truncate2 ((((calculate_ledger opening_bal input rate).1.getD i dummyRow).lowest_balance
          * rate) / 1200)
    ∧ truncate2 (1000 * (71 / 10) / 1200) = 591 / 100
    ∧ truncate2 (12349 / 1000) = 1234 / 100
    ∧ truncate2 (12346 / 1000) = 1234 / 100 := by
  refine ⟨?_, by norm_num [truncate2, pyInt, Int.tdiv_eq_ediv],
    by norm_num [truncate2, pyInt, Int.tdiv_eq_ediv],
    by norm_num [truncate2, pyInt, Int.tdiv_eq_ediv]⟩
  show ((ledgerRows opening_bal rate input).getD i dummyRow).interest
    = truncate2 ((((ledgerRows opening_bal rate input).getD i dummyRow).lowest_balance * rate) / 1200)
  rw [ledgerRows_getD rate input opening_bal i hi]
  simp only [mkRow_interest, mkRow_lowest]

theorem C1_interest_truncation_witness :
    0 < input5.length
    ∧ (((calculate_ledger 0 input5 (71 / 10)).1.getD 0 dummyRow).interest
        = truncate2 ((((calculate_ledger 0 input5 (71 / 10)).1.getD 0 dummyRow).lowest_balance
            * (71 / 10)) / 1200)
      ∧ truncate2 (1000 * (71 / 10) / 1200) = 591 / 100
      ∧ truncate2 (12349 / 1000) = 1234 / 100
      ∧ truncate2 (12346 / 1000) = 1234 / 100) :=
  ⟨by decide, C1_interest_truncation 0 (71 / 10) input5 0 (by decide)⟩

/-- Claim C2: For every valid input, the output rows are continuous: row 0 opens
with the supplied opening balance and each later row opens with the previous
row's closing balance. -/
theorem C2_continuity (opening_bal rate : ℚ) (input : List MonthInput)
    (h : validInput opening_bal input) :
    ((calculate_ledger opening_bal input rate).1.getD 0 dummyRow).opening_balance = opening_bal
    ∧ ∀ i : ℕ, 1 ≤ i → i ≤ 11 →
        ((calculate_ledger opening_bal input rate).1.getD i dummyRow).opening_balance
          = ((calculate_ledger opening_bal input rate).1.getD (i - 1) dummyRow).closing_balance := by
  obtain ⟨h12, -, -⟩ := h
  constructor
  · match input, h12 with
    | m :: ms, _ => exact ledgerRows_opening_zero rate opening_bal m ms
  · intro i h1 h11
    have hi : (i - 1) + 1 < input.length := by omega
    have hc := ledgerRows_chain rate input opening_bal (i - 1) hi
    have heq : (i - 1) + 1 = i := by omega
    rw [heq] at hc
    exact hc

theorem C2_continuity_witness :
    validInput 0 input5
    ∧ (((calculate_ledger 0 input5 (71 / 10)).1.getD 0 dummyRow).opening_balance = 0
      ∧ ∀ i : ℕ, 1 ≤ i → i ≤ 11 →
          ((calculate_ledger 0 input5 (71 / 10)).1.getD i dummyRow).opening_balance
            = ((calculate_ledger 0 input5 (71 / 10)).1.getD (i - 1) dummyRow).closing_balance) :=
  ⟨by decide, C2_continuity 0 (71 / 10) input5 (by decide)⟩

/-- Claim C3: For every month, the emitted lowest balance is
`max 0 (opening + deposit_pre15 + pflr_pre15 - withdrawal)` (post-15th flows
excluded, floored at zero), hence never negative. -/
theorem C3_lowest_balance (opening_bal rate : ℚ) (input : List MonthInput)
    (i : ℕ) (hi : i < input.length) :
    ((calculate_ledger opening_bal input rate).1.getD i dummyRow).lowest_balance
      = max 0 (((calculate_ledger opening_bal input rate).1.getD i dummyRow).opening_balance
          + (input.getD i dummyMonth).dep_before + (input.getD i dummyMonth).pflr_before
          - (input.getD i dummyMonth).withdrawal)
    ∧ 0 ≤ ((calculate_ledger opening_bal input rate).1.getD i dummyRow).lowest_balance := by
  simp only [calculate_ledger]
  constructor
  · rw [ledgerRows_getD rate input opening_bal i hi]
    simp only [mkRow_lowest, mkRow_opening]
    congr 1
    ring
  · rw [ledgerRows_getD rate input opening_bal i hi]
    simp only [mkRow_lowest]
    exact le_max_left 0 _

theorem C3_lowest_balance_witness :
    0 < withdrawInput.length
    ∧ (((calculate_ledger 0 withdrawInput (71 / 10)).1.getD 0 dummyRow).lowest_balance
        = max 0 (((calculate_ledger 0 withdrawInput (71 / 10)).1.getD 0 dummyRow).opening_balance
            + (withdrawInput.getD 0 dummyMonth).dep_before
            + (withdrawInput.getD 0 dummyMonth).pflr_before
            - (withdrawInput.getD 0 dummyMonth).withdrawal)
      ∧ 0 ≤ ((calculate_ledger 0 withdrawInput (71 / 10)).1.getD 0 dummyRow).lowest_balance) :=
  ⟨by decide, C3_lowest_balance 0 (71 / 10) withdrawInput 0 (by decide)⟩

/-- Claim C4: For every month, the emitted closing balance is
`opening + deposit_pre15 + deposit_post15 + pflr_pre15 + pflr_post15 -
withdrawal`: both pre- and post-15th flows enter the closing balance. -/
theorem C4_closing_balance (opening_bal rate : ℚ) (input : List MonthInput)
    (i : ℕ) (hi : i < input.length) :
    ((calculate_ledger opening_bal input rate).1.getD i dummyRow).closing_balance
      = ((calculate_ledger opening_bal input rate).1.getD i dummyRow).opening_balance
        + ((calculate_ledger opening_bal input rate).1.getD i dummyRow).dep_before
        + ((calculate_ledger opening_bal input rate).1.getD i dummyRow).dep_after
        + ((calculate_ledger opening_bal input rate).1.getD i dummyRow).pflr_before
        + ((calculate_ledger opening_bal input rate).1.getD i dummyRow).pflr_after
        - ((calculate_ledger opening_bal input rate).1.getD i dummyRow).withdrawal := by
  simp only [calculate_ledger]
  rw [ledgerRows_getD rate input opening_bal i hi]
  simp only [mkRow_closing, mkRow_opening, mkRow_dep_before, mkRow_dep_after,
    mkRow_pflr_before, mkRow_pflr_after, mkRow_withdrawal]

theorem C4_closing_balance_witness :
    0 < input5.length
    ∧ ((calculate_ledger 0 input5 (71 / 10)).1.getD 0 dummyRow).closing_balance
      = ((calculate_ledger 0 input5 (71 / 10)).1.getD 0 dummyRow).opening_balance
        + ((calculate_ledger 0 input5 (71 / 10)).1.getD 0 dummyRow).dep_before
        + ((calculate_ledger 0 input5 (71 / 10)).1.getD 0 dummyRow).dep_after
        + ((calculate_ledger 0 input5 (71 / 10)).1.getD 0 dummyRow).pflr_before
        + ((calculate_ledger 0 input5 (71 / 10)).1.getD 0 dummyRow).pflr_after
        - ((calculate_ledger 0 input5 (71 / 10)).1.getD 0 dummyRow).withdrawal :=
  ⟨by decide, C4_closing_balance 0 (71 / 10) input5 0 (by decide)⟩

/-- Claim C6: Each field of the returned totals is the exact sum of the
corresponding column over the output rows: the interest total is the sum of
the per-row truncated interests, and likewise for the five flow columns.
(Opening, closing and lowest balances are not totalled: `LedgerTotals` has no
such fields.) -/
theorem C6_totals_consistency (opening_bal rate : ℚ) (input : List MonthInput) :
    (calculate_ledger opening_bal input rate).2.1.total_interest
        = ((calculate_ledger opening_bal input rate).1.map (·.interest)).sum
    ∧ (calculate_ledger opening_bal input rate).2.1.sum_dep_b
        = ((calculate_ledger opening_bal input rate).1.map (·.dep_before)).sum
    ∧ (calculate_ledger opening_bal input rate).2.1.sum_pflr_b
        = ((calculate_ledger opening_bal input rate).1.map (·.pflr_before)).sum
    ∧ (calculate_ledger opening_bal input rate).2.1.sum_dep_a
        = ((calculate_ledger opening_bal input rate).1.map (·.dep_after)).sum
    ∧ (calculate_ledger opening_bal input rate).2.1.sum_pflr_a
        = ((calculate_ledger opening_bal input rate).1.map (·.pflr_after)).sum
    ∧ (calculate_ledger opening_bal input rate).2.1.sum_with
        = ((calculate_ledger opening_bal input rate).1.map (·.withdrawal)).sum := by
  simp only [calculate_ledger]
  refine ⟨totalInterest_eq_sum rate input opening_bal, ?_, ?_, ?_, ?_, ?_⟩
  · rw [ledgerRows_map rate (·.dep_before) (·.dep_before)
      (fun b m => mkRow_dep_before b rate m) input opening_bal]
  · rw [ledgerRows_map rate (·.pflr_before) (·.pflr_before)
      (fun b m => mkRow_pflr_before b rate m) input opening_bal]
  · rw [ledgerRows_map rate (·.dep_after) (·.dep_after)
      (fun b m => mkRow_dep_after b rate m) input opening_bal]
  · rw [ledgerRows_map rate (·.pflr_after) (·.pflr_after)
      (fun b m => mkRow_pflr_after b rate m) input opening_bal]
  · rw [ledgerRows_map rate (·.withdrawal) (·.withdrawal)
      (fun b m => mkRow_withdrawal b rate m) input opening_bal]

/-- Claim C10: Conservation of principal: the final closing principal equals the
opening balance plus all deposit/PFLR totals minus the withdrawal total;
interest never enters the running balance, and the closing balance is not
floored at zero, so the final principal and intermediate opening balances can
be negative (e.g. a lone withdrawal of 100 from balance 0 gives final
principal -100 and month-2 opening balance -100). -/
theorem C10_principal_conservation :
    (∀ (opening_bal rate : ℚ) (input : List MonthInput),
      (calculate_ledger opening_bal input rate).2.2
        = opening_bal + (calculate_ledger opening_bal input rate).2.1.sum_dep_b
            + (calculate_ledger opening_bal input rate).2.1.sum_pflr_b
            + (calculate_ledger opening_bal input rate).2.1.sum_dep_a
            + (calculate_ledger opening_bal input rate).2.1.sum_pflr_a
            - (calculate_ledger opening_bal input rate).2.1.sum_with)
    ∧ (calculate_ledger 0 withdrawInput 0).2.2 = -100
    ∧ ((calculate_ledger 0 withdrawInput 0).1.getD 1 dummyRow).opening_balance = -100 := by
  refine ⟨?_, ?_, ?_⟩
  · intro opening_bal rate input
    exact finalBalance_eq rate input opening_bal
  · show finalBalance 0 0 withdrawInput = -100
    simp only [withdrawInput, withdrawMonth, zeroMonth, finalBalance, mkRow_closing]
    norm_num
  · show ((ledgerRows 0 0 withdrawInput).getD 1 dummyRow).opening_balance = -100
    simp only [withdrawInput, withdrawMonth, zeroMonth, ledgerRows,
      List.getD_cons_succ, List.getD_cons_zero, mkRow_closing, mkRow_opening]
    norm_num

/-- The row at the split point of `pre ++ mo :: post` is `mkRow` of the
prefix's final balance and `mo`. -/
theorem ledgerRows_getD_split (rate opening_bal : ℚ) (pre post : List MonthInput)
    (mo : MonthInput) :
    (ledgerRows opening_bal rate (pre ++ mo :: post)).getD pre.length dummyRow
      = mkRow (finalBalance opening_bal rate pre) rate mo := by
  rw [ledgerRows_append rate pre (mo :: post) opening_bal]
  simp only [ledgerRows]
  rw [← ledgerRows_length rate pre opening_bal]
  exact getD_append_own _ _ _ _

/-- The rows after the split point of `pre ++ mo :: post` are the rows of
`post` started from `mo`'s closing balance. -/
theorem ledgerRows_getD_split_after (rate opening_bal : ℚ) (pre post : List MonthInput)
    (mo : MonthInput) (k : ℕ) :
    (ledgerRows opening_bal rate (pre ++ mo :: post)).getD (pre.length + 1 + k) dummyRow
      = (ledgerRows (mkRow (finalBalance opening_bal rate pre) rate mo).closing_balance
          rate post).getD k dummyRow := by
  rw [ledgerRows_append rate pre (mo :: post) opening_bal]
  simp only [ledgerRows]
  have h1 : pre.length + 1 + k = (ledgerRows opening_bal rate pre).length + (k + 1) := by
    rw [ledgerRows_length]; omega
  rw [h1, getD_append_shift, List.getD_cons_succ]

/-- Claim C7: Two-run property: if two inputs differ only in `deposit_post15` of
one month (the second strictly larger), that month's closing balance and
every subsequent month's opening balance differ between the runs, but that
month's own interest and lowest balance are identical. -/
theorem C7_post15_exclusion (opening_bal rate d2 : ℚ) (pre post : List MonthInput)
    (mo : MonthInput) (hd : mo.dep_after < d2) :
    postExclusionProp opening_bal rate d2 pre post mo := by
  unfold postExclusionProp
  simp only [calculate_ledger]
  have hdelta : (mkRow (finalBalance opening_bal rate pre) rate { mo with dep_after := d2 }).closing_balance
      = (mkRow (finalBalance opening_bal rate pre) rate mo).closing_balance
          + (d2 - mo.dep_after) := by
    simp only [mkRow_closing]
    ring
  refine ⟨?_, ?_, ?_, ?_⟩
  · rw [ledgerRows_getD_split, ledgerRows_getD_split, hdelta]
    intro heq
    have h0 : d2 - mo.dep_after = 0 := by linarith
    linarith
  · intro j hj1 hj2
    obtain ⟨k, hk, hkpost⟩ : ∃ k, j = pre.length + 1 + k ∧ k < post.length :=
      ⟨j - pre.length - 1, by omega, by omega⟩
    subst hk
    rw [ledgerRows_getD_split_after, ledgerRows_getD_split_after, hdelta,
      ledgerRows_shift rate (d2 - mo.dep_after) post _ k hkpost]
    intro heq
    have h0 : d2 - mo.dep_after = 0 := by linarith
    linarith
  · rw [ledgerRows_getD_split, ledgerRows_getD_split]
    simp only [mkRow_interest]
  · rw [ledgerRows_getD_split, ledgerRows_getD_split]
    simp only [mkRow_lowest]

theorem C7_post15_exclusion_witness :
    zeroMonth.dep_after < 1 ∧ postExclusionProp 0 (71 / 10) 1 [] [] zeroMonth :=
  ⟨by decide, C7_post15_exclusion 0 (71 / 10) 1 [] [] zeroMonth (by decide)⟩

/-- Claim C8: In per-month rate mode the engine uses each row's own
`interest_rate_percent` in the interest step, and changing only month 5's
rate (with 12 months: four before, seven after) changes no other month's
interest. -/
theorem C8_per_month_rate_isolation (opening_bal r2 : ℚ) (pre post : List MonthInput)
    (mo : MonthInput) (_hpre : pre.length = 4) (_hpost : post.length = 7) :
    perMonthRateProp opening_bal r2 pre post mo := by
  unfold perMonthRateProp
  constructor
  · intro j hj
    rw [ledgerRowsPM_getD (pre ++ mo :: post) opening_bal j hj]
    simp only [mkRowPM, mkRow_interest, mkRow_lowest]
  · intro j hj
    exact congrArg LedgerRow.interest
      (ledgerRowsPM_rate_update r2 mo post pre opening_bal j hj)

theorem C8_per_month_rate_isolation_witness :
    (pre4.length = 4 ∧ post7.length = 7) ∧ perMonthRateProp 0 1 pre4 post7 zeroMonth :=
  ⟨⟨by decide, by decide⟩,
    C8_per_month_rate_isolation 0 1 pre4 post7 zeroMonth (by decide) (by decide)⟩

theorem decDigitsCore_acc : ∀ (fuel n : ℕ) (acc : List Char), n < fuel →
    decDigitsCore fuel n acc = decDigitsCore fuel n [] ++ acc
  | 0, n, _, h => absurd h (Nat.not_lt_zero n)
  | fuel + 1, n, acc, h => by
    by_cases h0 : n / 10 = 0
    · simp [decDigitsCore, h0]
    · have hlt : n / 10 < fuel := by omega
      simp only [decDigitsCore, if_neg h0]
      rw [decDigitsCore_acc fuel (n / 10) (Nat.digitChar (n % 10) :: acc) hlt,
        decDigitsCore_acc fuel (n / 10) [Nat.digitChar (n % 10)] hlt,
        List.append_assoc, List.singleton_append]

theorem decDigitsCore_fuel : ∀ (f1 f2 n : ℕ), n < f1 → n < f2 →
    decDigitsCore f1 n [] = decDigitsCore f2 n []
  | 0, _, n, h1, _ => absurd h1 (Nat.not_lt_zero n)
  | _ + 1, 0, n, _, h2 => absurd h2 (Nat.not_lt_zero n)
  | f1 + 1, f2 + 1, n, h1, h2 => by
    by_cases h0 : n / 10 = 0
    · simp [decDigitsCore, h0]
    · have hd1 : n / 10 < f1 := by omega
      have hd2 : n / 10 < f2 := by omega
      simp only [decDigitsCore, if_neg h0]
      rw [decDigitsCore_acc f1 (n / 10) [Nat.digitChar (n % 10)] hd1,
        decDigitsCore_acc f2 (n / 10) [Nat.digitChar (n % 10)] hd2,
        decDigitsCore_fuel f1 f2 (n / 10) hd1 hd2]

/-- A number with at least two digits renders as its leading digits followed
by its last digit. -/
theorem pyStr_step (n : ℕ) (h : 10 ≤ n) :
    pyStr n = pyStr (n / 10) ++ [Nat.digitChar (n % 10)] := by
  have h0 : ¬ n / 10 = 0 := by omega
  have hstep : pyStr n = decDigitsCore n (n / 10) [Nat.digitChar (n % 10)] := by
    show (if n / 10 = 0 then Nat.digitChar (n % 10) :: ([] : List Char)
        else decDigitsCore n (n / 10) (Nat.digitChar (n % 10) :: [])) = _
    rw [if_neg h0]
  rw [hstep, decDigitsCore_acc n (n / 10) _ (by omega),
    decDigitsCore_fuel n (n / 10 + 1) (n / 10) (by omega) (by omega)]
  rfl

/-- A single-digit number renders as its digit character. -/
theorem pyStr_small (n : ℕ) (h : n < 10) : pyStr n = [Nat.digitChar n] := by
  have h0 : n / 10 = 0 := by omega
  have hm : n % 10 = n := by omega
  show (if n / 10 = 0 then Nat.digitChar (n % 10) :: ([] : List Char)
      else decDigitsCore n (n / 10) (Nat.digitChar (n % 10) :: [])) = _
  rw [if_pos h0, hm]

theorem pyStr_length_pos (n : ℕ) : 1 ≤ (pyStr n).length := by
  by_cases h : n < 10
  · rw [pyStr_small n h]; simp
  · rw [pyStr_step n (by omega)]; simp

/-- The last character of `str(n)` is the character of `n`'s last decimal
digit. -/
theorem pyStr_lastDigit (n : ℕ) :
    (pyStr n).drop ((pyStr n).length - 1) = [Nat.digitChar (n % 10)] := by
  by_cases h : n < 10
  · rw [pyStr_small n h]
    simp [Nat.mod_eq_of_lt h]
  · rw [pyStr_step n (by omega)]
    have hl : (pyStr (n / 10) ++ [Nat.digitChar (n % 10)]).length - 1
        = (pyStr (n / 10)).length := by simp
    rw [hl, List.drop_left]

theorem drop_append_of_le {α : Type} (Q : List α) :
    ∀ (P : List α) (k : ℕ), k ≤ P.length → (P ++ Q).drop k = P.drop k ++ Q
  | _, 0, _ => by simp
  | [], k + 1, h => absurd h (by simp)
  | p :: P, k + 1, h => by
    simp only [List.cons_append, List.drop_succ_cons]
    exact drop_append_of_le Q P k (by simpa using Nat.le_of_succ_le_succ h)

/-- The Python slice `str(z)[-2:]` of a year with at least two digits is
exactly its last two decimal digits. -/
theorem pyLast2_pyStr (z : ℕ) (h : 10 ≤ z) :
    pyLast2 (pyStr z) = lastTwoDigitChars z := by
  rw [pyLast2, pyStr_step z h]
  have hX : 1 ≤ (pyStr (z / 10)).length := pyStr_length_pos _
  have hidx : (pyStr (z / 10) ++ [Nat.digitChar (z % 10)]).length - 2
      = (pyStr (z / 10)).length - 1 := by
    simp only [List.length_append, List.length_singleton]
    omega
  rw [hidx, drop_append_of_le _ _ _ (by omega), pyStr_lastDigit (z / 10)]
  rfl

/-- Claim C9: For every fiscal start year (with at least two digits), the
month-label function returns exactly twelve labels in the fixed order APRIL
through MARCH, the first nine using the start year and the last three the
start year + 1, each rendered as `"MONTHNAME YY"` with `YY` the last two
decimal digits of that month's calendar year. -/
theorem C9_month_labels (y : ℕ) (h : 10 ≤ y) :
    (get_fy_months y).length = 12
    ∧ get_fy_months y
        = m_names.mapIdx fun i m =>
            m ++ " " ++ String.mk (lastTwoDigitChars (if i < 9 then y else y + 1)) := by
  have h1 := pyLast2_pyStr y h
  have h2 := pyLast2_pyStr (y + 1) (by omega)
  constructor
  · simp [get_fy_months, m_names, List.mapIdx, List.mapIdx.go]
  · simp [get_fy_months, m_names, List.mapIdx, List.mapIdx.go, h1, h2]

/-- Claim C5, counterexample: On the claimed scenario (opening 0, rate 7.1,
deposits of 1000 before the 15th in months 1 and 2 only), month 3's interest
is 11.83, not 0: the standing balance of 2000 keeps earning interest, so the
claimed months-3-12 interest of 0, interest total of 17.74 and grand total of
2017.74 are all false on the code. -/
theorem C5_end_to_end_counterexample :
    ((calculate_ledger 0 input5 (71 / 10)).1.getD 2 dummyRow).interest = 1183 / 100
    ∧ ¬ ((calculate_ledger 0 input5 (71 / 10)).1.getD 2 dummyRow).interest = 0
    ∧ ¬ (calculate_ledger 0 input5 (71 / 10)).2.1.total_interest = 1774 / 100
    ∧ ¬ final_total_balance (calculate_ledger 0 input5 (71 / 10)).2.2
        (calculate_ledger 0 input5 (71 / 10)).2.1.total_interest = 201774 / 100 := by
  refine ⟨?_, ?_, ?_, ?_⟩
  · norm_num [calculate_ledger, input5, depMonth, zeroMonth, ledgerRows, truncate2,
      pyInt, Int.tdiv_eq_ediv, max_def]
  · norm_num [calculate_ledger, input5, depMonth, zeroMonth, ledgerRows, truncate2,
      pyInt, Int.tdiv_eq_ediv, max_def]
  · norm_num [calculate_ledger, input5, depMonth, zeroMonth, totalInterest, truncate2,
      pyInt, Int.tdiv_eq_ediv, max_def]
  · norm_num [final_total_balance, calculate_ledger, input5, depMonth, zeroMonth,
      totalInterest, finalBalance, truncate2, pyInt, Int.tdiv_eq_ediv, max_def]

/-- Claim C5, amended: End-to-end scenario as the code actually computes it:
opening 0, rate 7.1, months 1 and 2 deposit 1000 before the 15th, all else
zero.  Month 1: lowest 1000, interest 5.91, closing 1000.  Month 2: lowest
2000, interest 11.83, closing 2000.  Months 3-12: closing 2000 and interest
11.83 each (the standing balance keeps earning).  Totals: deposits 2000,
interest 5.91 + 11 x 11.83 = 136.04.  Final principal 2000; principal plus
total interest 2136.04. -/
theorem C5_end_to_end_amended :
    ((calculate_ledger 0 input5 (71 / 10)).1.getD 0 dummyRow).lowest_balance = 1000
    ∧ ((calculate_ledger 0 input5 (71 / 10)).1.getD 0 dummyRow).interest = 591 / 100
    ∧ ((calculate_ledger 0 input5 (71 / 10)).1.getD 0 dummyRow).closing_balance = 1000
    ∧ ((calculate_ledger 0 input5 (71 / 10)).1.getD 1 dummyRow).lowest_balance = 2000
    ∧ ((calculate_ledger 0 input5 (71 / 10)).1.getD 1 dummyRow).interest = 1183 / 100
    ∧ ((calculate_ledger 0 input5 (71 / 10)).1.getD 1 dummyRow).closing_balance = 2000
    ∧ ((calculate_ledger 0 input5 (71 / 10)).1.getD 2 dummyRow).closing_balance = 2000
    ∧ ((calculate_ledger 0 input5 (71 / 10)).1.getD 2 dummyRow).interest = 1183 / 100
    ∧ ((calculate_ledger 0 input5 (71 / 10)).1.getD 3 dummyRow).closing_balance = 2000
    ∧ ((calculate_ledger 0 input5 (71 / 10)).1.getD 3 dummyRow).interest = 1183 / 100
    ∧ ((calculate_ledger 0 input5 (71 / 10)).1.getD 4 dummyRow).closing_balance = 2000
    ∧ ((calculate_ledger 0 input5 (71 / 10)).1.getD 4 dummyRow).interest = 1183 / 100
    ∧ ((calculate_ledger 0 input5 (71 / 10)).1.getD 5 dummyRow).closing_balance = 2000
    ∧ ((calculate_ledger 0 input5 (71 / 10)).1.getD 5 dummyRow).interest = 1183 / 100
    ∧ ((calculate_ledger 0 input5 (71 / 10)).1.getD 6 dummyRow).closing_balance = 2000
    ∧ ((calculate_ledger 0 input5 (71 / 10)).1.getD 6 dummyRow).interest = 1183 / 100
    ∧ ((calculate_ledger 0 input5 (71 / 10)).1.getD 7 dummyRow).closing_balance = 2000
    ∧ ((calculate_ledger 0 input5 (71 / 10)).1.getD 7 dummyRow).interest = 1183 / 100
    ∧ ((calculate_ledger 0 input5 (71 / 10)).1.getD 8 dummyRow).closing_balance = 2000
    ∧ ((calculate_ledger 0 input5 (71 / 10)).1.getD 8 dummyRow).interest = 1183 / 100
    ∧ ((calculate_ledger 0 input5 (71 / 10)).1.getD 9 dummyRow).closing_balance = 2000
    ∧ ((calculate_ledger 0 input5 (71 / 10)).1.getD 9 dummyRow).interest = 1183 / 100
    ∧ ((calculate_ledger 0 input5 (71 / 10)).1.getD 10 dummyRow).closing_balance = 2000
    ∧ ((calculate_ledger 0 input5 (71 / 10)).1.getD 10 dummyRow).interest = 1183 / 100
    ∧ ((calculate_ledger 0 input5 (71 / 10)).1.getD 11 dummyRow).closing_balance = 2000
    ∧ ((calculate_ledger 0 input5 (71 / 10)).1.getD 11 dummyRow).interest = 1183 / 100
    ∧ (calculate_ledger 0 input5 (71 / 10)).2.1.sum_dep_b = 2000
    ∧ (calculate_ledger 0 input5 (71 / 10)).2.1.total_interest = 13604 / 100
    ∧ (calculate_ledger 0 input5 (71 / 10)).2.2 = 2000
    ∧ final_total_balance (calculate_ledger 0 input5 (71 / 10)).2.2
        (calculate_ledger 0 input5 (71 / 10)).2.1.total_interest = 213604 / 100 := by
  norm_num [final_total_balance, calculate_ledger, input5, depMonth, zeroMonth,
    ledgerRows, totalInterest, finalBalance, truncate2, pyInt, Int.tdiv_eq_ediv, max_def]

theorem C9_month_labels_witness :
    10 ≤ 2024
    ∧ ((get_fy_months 2024).length = 12
      ∧ get_fy_months 2024
          = m_names.mapIdx fun i m =>
              m ++ " " ++ String.mk (lastTwoDigitChars (if i < 9 then 2024 else 2024 + 1))) :=
  ⟨by decide, C9_month_labels 2024 (by decide)⟩

end PF
